import Mathlib

/-!
Verification of the batch-processing core (cost tracker, rate limiter,
brand registry, parallel batch orchestrator) against its design spec.

Shallow embedding conventions:
* Python floats are modelled as exact rationals (`ℚ`).
* `threading.Lock`-guarded mutation is modelled as pure state passing
  (the lock makes each operation atomic, so the sequential model is the
  linearized behaviour).
* An operation that may raise is modelled as returning the mutated state
  together with a `Bool` flag (`true` = the exception was raised); the
  state returned is the state at the moment of the raise, since Python
  exceptions do not roll back prior mutations.
* Wall-clock times (`time.time()`, `datetime` timestamps) are explicit
  parameters.
-/

/-- Python truthiness of an `Optional[float]`: `None` and `0.0` are falsy,
every other float is truthy.  Used for `if self.budget_limit:` checks. -/
def pyTruthy : Option ℚ → Bool
  | none => false
  | some x => decide (x ≠ 0)

/-! ## Cost tracker (`src/utils/cost_tracker.py`) -/

/-- State of `CostTracker`: the `budget_limit` argument plus the `self.costs`
dictionary (field per key). -/
structure CostTracker where
  budget_limit : Option ℚ
  tavily : ℚ
  tavily_calls : ℕ
  openrouter : ℚ
  openrouter_calls : ℕ
  openrouter_input_tokens : ℕ
  openrouter_output_tokens : ℕ
  total : ℚ
deriving DecidableEq, Repr

/-- `CostTracker.__init__`: all accumulators start at zero. -/
def CostTracker.init (budget_limit : Option ℚ) : CostTracker :=
  { budget_limit := budget_limit
    tavily := 0, tavily_calls := 0
    openrouter := 0, openrouter_calls := 0
    openrouter_input_tokens := 0, openrouter_output_tokens := 0
    total := 0 }

/-- `self.pricing["tavily_per_result"]` = $0.001 per search result. -/
def tavily_per_result : ℚ := 1 / 1000

/-- `self.pricing["openrouter_input_per_1m"]` = $0.075 per 1M input tokens. -/
def openrouter_input_per_1m : ℚ := 75 / 1000

/-- `self.pricing["openrouter_output_per_1m"]` = $0.30 per 1M output tokens. -/
def openrouter_output_per_1m : ℚ := 30 / 100

/-- Exceptions that the budget check can surface.  `exceptions.py` defines
`BudgetExceededError` with `__init__(self, current_cost, budget_limit)` —
two required positional arguments — so a well-formed instance would carry
those two fields; `typeError` models Python raising `TypeError` when a
constructor is called with the wrong arity. -/
inductive PyError where
  | typeError (msg : String)
  | budgetExceededError (current_cost budget_limit : ℚ)
deriving DecidableEq, Repr

/-- The exception `_check_budget` actually throws when its guard fires:
the statement `raise BudgetExceededError(f"Budget limit ... exceeded ...")`
passes a single message string to a constructor requiring the two
positional arguments `(current_cost, budget_limit)`, so evaluating the
constructor raises `TypeError` — a `BudgetExceededError` instance is never
built. -/
def budget_check_error : PyError :=
  PyError.typeError
    "BudgetExceededError.__init__ missing 1 required positional argument: budget_limit"

/-- `CostTracker._check_budget`: when `self.budget_limit` is truthy and
`self.costs["total"] > self.budget_limit` (strict comparison), the code
executes its `raise BudgetExceededError(...)` statement — which throws the
`TypeError` above, because `BudgetExceededError.__init__` takes
`(current_cost, budget_limit)` and is given one string.  Returns the
raised exception, or `none` when nothing is raised. -/
def CostTracker.check_budget (t : CostTracker) : Option PyError :=
  if pyTruthy t.budget_limit && decide (t.total > t.budget_limit.getD 0) then
    some budget_check_error
  else none

/-- `CostTracker.record_tavily_call`: accrue `results_count * $0.001` into the
tavily and total accumulators, bump the call count, then check the budget.
The second component is the exception raised by the check, if any. -/
def CostTracker.record_tavily_call (t : CostTracker) (results_count : ℕ) :
    CostTracker × Option PyError :=
  let cost : ℚ := results_count * tavily_per_result
  let t' : CostTracker :=
    { t with
      tavily := t.tavily + cost
      tavily_calls := t.tavily_calls + 1
      total := t.total + cost }
  (t', t'.check_budget)

/-- `CostTracker.record_llm_call`: accrue token-priced cost into the
openrouter and total accumulators, bump counts and token totals, then check
the budget.  The second component is the exception raised by the check, if
any. -/
def CostTracker.record_llm_call (t : CostTracker)
    (input_tokens output_tokens : ℕ) : CostTracker × Option PyError :=
  let input_cost : ℚ := input_tokens * openrouter_input_per_1m / 1000000
  let output_cost : ℚ := output_tokens * openrouter_output_per_1m / 1000000
  let total_cost : ℚ := input_cost + output_cost
  let t' : CostTracker :=
    { t with
      openrouter := t.openrouter + total_cost
      openrouter_calls := t.openrouter_calls + 1
      openrouter_input_tokens := t.openrouter_input_tokens + input_tokens
      openrouter_output_tokens := t.openrouter_output_tokens + output_tokens
      total := t.total + total_cost }
  (t', t'.check_budget)

/-- The `"budget_remaining"` entry of `CostTracker.get_summary`:
`self.budget_limit - self.costs["total"] if self.budget_limit else None`. -/
def CostTracker.budget_remaining (t : CostTracker) : Option ℚ :=
  if pyTruthy t.budget_limit then some (t.budget_limit.getD 0 - t.total)
  else none

/-! ## Rate limiter (`src/utils/rate_limiter.py`) -/

/-- State of `RateLimiter`: `interval = 60.0 / calls_per_minute`, the token
bucket (`tokens`, `max_tokens`), and `last_update` (a wall-clock time). -/
structure RateLimiter where
  interval : ℚ
  max_tokens : ℚ
  tokens : ℚ
  last_update : ℚ
deriving DecidableEq, Repr

/-- `RateLimiter.__init__`: the bucket starts full (`tokens = burst_size`)
at wall-clock time `t0`. -/
def RateLimiter.init (calls_per_minute burst_size : ℕ) (t0 : ℚ) : RateLimiter :=
  { interval := 60 / calls_per_minute
    max_tokens := burst_size
    tokens := burst_size
    last_update := t0 }

/-- `RateLimiter.acquire`, called at wall-clock time `now`.  Refills tokens
proportionally to elapsed time (capped at `max_tokens`); if fewer than one
token is available, sleeps for the deficit `(1 - tokens) * interval`, sets
`tokens = 1.0` and `last_update = time.time()` (modelled as `now + wait`,
the clock after the sleep); finally consumes one token.  Returns the time
waited and the new state. -/
def RateLimiter.acquire (st : RateLimiter) (now : ℚ) : ℚ × RateLimiter :=
  let time_passed := now - st.last_update
  let tokens1 := min st.max_tokens (st.tokens + time_passed / st.interval)
  if tokens1 < 1 then
    let wait := (1 - tokens1) * st.interval
    (wait, { st with tokens := 1 - 1, last_update := now + wait })
  else
    (0, { st with tokens := tokens1 - 1, last_update := now })

/-- Iterated `acquire` at the given sequence of wall-clock call times,
collecting the returned wait times. -/
def RateLimiter.acquireSeq (st : RateLimiter) : List ℚ → List ℚ × RateLimiter
  | [] => ([], st)
  | t :: ts =>
    let r := st.acquire t
    let rest := r.2.acquireSeq ts
    (r.1 :: rest.1, rest.2)

/-! ## Brand registry (`src/utils/registry.py`) -/

/-- Result of `BrandRegistry._compute_input_hash`.  The code computes a
SHA256 digest of the canonical JSON serialization (sorted keys) of the
normalized fields; since that digest is a deterministic injective-in-practice
function of the normalized triple, the hash is modelled as the normalized
triple itself. -/
structure InputHash where
  brand_name : String
  website : String
  parent_company : String
deriving DecidableEq, Repr

/-- `BrandRegistry._compute_input_hash`: normalize each field with
`(field or "").strip()` before hashing. -/
def compute_input_hash (brand_name : String)
    (website parent_company : Option String) : InputHash :=
  { brand_name := brand_name.trim
    website := (website.getD "").trim
    parent_company := (parent_company.getD "").trim }

/-- Registry record status as written by `record_success` / `record_failure`
(`"success"` or `"failed"`). -/
inductive Status where
  | success
  | failed
deriving DecidableEq, Repr

/-- A registry record, per the fields written by `record_success` and
`record_failure`.  Optional fields model keys that may be absent from the
record dictionary. -/
structure RegistryRecord where
  last_input_hash : InputHash
  status : Status
  last_success_at : Option String
  last_fail_at : Option String
  last_run_id : String
  last_error : Option String
  outputs : Option (List (String × String))
deriving DecidableEq, Repr

/-- The in-memory registry: `self.registry`, a dictionary keyed by brand
name, modelled as an association list without duplicate-key semantics
surprises (`set` updates in place or appends). -/
abbrev Registry := List (String × RegistryRecord)

/-- Dictionary read `self.registry.get(brand_name)`. -/
def Registry.find? (reg : Registry) (name : String) : Option RegistryRecord :=
  List.lookup name reg

/-- Dictionary write `self.registry[brand_name] = record`. -/
def Registry.set (reg : Registry) (name : String) (r : RegistryRecord) :
    Registry :=
  match reg with
  | [] => [(name, r)]
  | (k, v) :: rest =>
    if k = name then (k, r) :: rest else (k, v) :: Registry.set rest name r

/-- `BrandRegistry.needs_processing`.  Returns the `(bool, reason)` pair;
the reason strings are exactly those in the code.  (The write-through
`_save_registry` performs no reads, so it does not appear here.) -/
def needs_processing (reg : Registry) (brand_name : String)
    (website parent_company : Option String) (force : Bool) :
    Bool × String :=
  if force then (true, "forced")
  else
    let current_hash := compute_input_hash brand_name website parent_company
    match reg.find? brand_name with
    | none => (true, "new_brand")
    | some record =>
      if record.last_input_hash ≠ current_hash then (true, "inputs_changed")
      else if record.status = Status.failed then (true, "retry_failed")
      else (false, "already_processed")

/-- `BrandRegistry.record_success`: overwrite the record with a fresh
success record (`outputs or {}` defaults to the empty dict); the
`last_fail_at` / `last_error` keys are removed.  `timestamp` stands for
`datetime.utcnow().isoformat()`. -/
def record_success (reg : Registry) (brand_name : String)
    (website parent_company : Option String) (run_id : String)
    (outputs : Option (List (String × String))) (timestamp : String) :
    Registry :=
  let current_hash := compute_input_hash brand_name website parent_company
  reg.set brand_name
    { last_input_hash := current_hash
      status := Status.success
      last_success_at := some timestamp
      last_fail_at := none
      last_run_id := run_id
      last_error := none
      outputs := some (outputs.getD []) }

/-- `BrandRegistry.record_failure`: overwrite the record with a fresh
failure record (error truncated to 500 characters), preserving
`last_success_at` from the existing record when present. -/
def record_failure (reg : Registry) (brand_name : String)
    (website parent_company : Option String) (run_id : String)
    (error : String) (timestamp : String) : Registry :=
  let current_hash := compute_input_hash brand_name website parent_company
  let base : RegistryRecord :=
    { last_input_hash := current_hash
      status := Status.failed
      last_success_at := none
      last_fail_at := some timestamp
      last_run_id := run_id
      last_error := some (error.take 500)
      outputs := none }
  let newRecord :=
    match reg.find? brand_name with
    | some old =>
      match old.last_success_at with
      | some ts => { base with last_success_at := some ts }
      | none => base
    | none => base
  reg.set brand_name newRecord

/-- `BrandRegistry.get_stats`: `(total, success, failed)` counts. -/
def get_stats (reg : Registry) : ℕ × ℕ × ℕ :=
  (reg.length,
   reg.countP (fun p => p.2.status = Status.success),
   reg.countP (fun p => p.2.status = Status.failed))

/-- The three conditions `BrandRegistry._load_registry` distinguishes on the
backing file `state/registry.json`: absent, present but unparseable, or
parsed to a registry mapping. -/
inductive StoredFile where
  | missing
  | corrupt (raw : String)
  | parsed (reg : Registry)

/-- `BrandRegistry._load_registry`: a missing file or a parse error yields
the empty registry (with a logged warning); the function is total — every
exception inside the `try` is caught, so construction never raises. -/
def load_registry : StoredFile → Registry
  | StoredFile.missing => []
  | StoredFile.corrupt _ => []
  | StoredFile.parsed reg => reg

/-! ## Parallel batch processor (`src/utils/batch_processor.py`) -/

/-- A row loaded from the job source (`get_brands_from_sheet`): the fields
`_process_single_brand` and the registry consume. -/
structure Brand where
  brand_name : String
  website : Option String
  parent_company : Option String
  row_number : ℕ
deriving DecidableEq, Repr

/-- Python `value or None` on an optional string: the empty string is falsy
and becomes `None` (used by `_process_single_brand` for `website` and
`parent_company`). -/
def pyOrNone : Option String → Option String
  | none => none
  | some s => if s = "" then none else some s

/-- Outcome of one invocation of the job function (`run_workflow`) as seen
by `_process_single_brand`: a final state without errors, a final state
with errors, an `APIKeyError`, or any other raised exception
(which includes `BudgetExceededError`, since the worker's
`except Exception` catches it). -/
inductive JobOutcome where
  | ok (outputs : List (String × String))
  | errs (msg : String)
  | apiKeyErr (msg : String)
  | exn (msg : String)
deriving DecidableEq, Repr

/-- One entry of the `success` / `failed` result lists built by
`_process_single_brand` and `_process_chunk_parallel` (the `"status"` key
is the constructor; error detail is carried as its summary string). -/
inductive ResultEntry where
  | success (brand : String) (row : ℕ) (outputs : List (String × String))
  | failed (brand : String) (row : ℕ) (error : String)
deriving DecidableEq, Repr

/-- One entry of the `skipped` result list built in `process_batch`. -/
structure SkipEntry where
  brand : String
  row : ℕ
  reason : String
deriving DecidableEq, Repr

/-- The `self.results` dictionary: lists under the keys `"success"`,
`"failed"` and `"skipped"`. -/
structure BatchResults where
  success : List ResultEntry
  failed : List ResultEntry
  skipped : List SkipEntry
deriving DecidableEq, Repr

/-- The possible values stored in the `self.results` dictionary. -/
inductive ResultsVal where
  | processed (entries : List ResultEntry)
  | skippedEntries (entries : List SkipEntry)
deriving DecidableEq, Repr

/-- Dictionary view of `self.results`: lookup by key.  The dictionary is
created in `__init__` with exactly the keys `"success"`, `"failed"`,
`"skipped"` and no key is ever added afterwards. -/
def BatchResults.field : BatchResults → String → Option ResultsVal
  | r, "success" => some (ResultsVal.processed r.success)
  | r, "failed" => some (ResultsVal.processed r.failed)
  | r, "skipped" => some (ResultsVal.skippedEntries r.skipped)
  | _, _ => none

/-- A checkpoint as written by `_save_checkpoint` (the `timestamp` is
omitted; `results` is the snapshot of `self.results` at save time and
`total_cost` the value of `self.total_cost` at save time). -/
structure Checkpoint where
  reason : String
  processed_count : ℕ
  results : BatchResults
  total_cost : ℚ
deriving DecidableEq, Repr

/-- `self.cost_per_brand = 0.05` (estimate used by the orchestrator's
budget check). -/
def cost_per_brand : ℚ := 5 / 100

/-- `_process_single_brand` for one brand: runs the job function, records
the outcome in the registry, and returns the result entry together with
the updated registry.  Every exception raised by the job is caught inside
the worker (the `except APIKeyError` and `except Exception` arms), so this
function is total: no outcome propagates an error.  `run_id` abstracts
`self.run_logger.start(...)`; `ts` abstracts `datetime.utcnow()`. -/
def process_single_brand (job : Brand → JobOutcome)
    (run_id ts : Brand → String) (reg : Registry) (b : Brand) :
    ResultEntry × Registry :=
  let website := pyOrNone b.website
  let parent := pyOrNone b.parent_company
  match job b with
  | JobOutcome.ok outputs =>
    (ResultEntry.success b.brand_name b.row_number outputs,
     record_success reg b.brand_name website parent (run_id b)
       (some outputs) (ts b))
  | JobOutcome.errs msg =>
    (ResultEntry.failed b.brand_name b.row_number msg,
     record_failure reg b.brand_name website parent (run_id b) msg (ts b))
  | JobOutcome.apiKeyErr _ =>
    (ResultEntry.failed b.brand_name b.row_number "API key error", reg)
  | JobOutcome.exn msg =>
    (ResultEntry.failed b.brand_name b.row_number msg,
     record_failure reg b.brand_name website parent (run_id b) msg (ts b))

/-- `_process_chunk_parallel`: every worker result is collected — a
successful future extends `chunk_results["success"]`, anything else
(including exceptions re-raised by `future.result()`) extends
`chunk_results["failed"]`.  Workers run concurrently but registry updates
are serialized under the registry's write path and results are merged per
completion; the model fixes submission order as the linearization.  Returns
`(success list, failed list)` and the updated registry. -/
def process_chunk (job : Brand → JobOutcome) (run_id ts : Brand → String) :
    Registry → List Brand → (List ResultEntry × List ResultEntry) × Registry
  | reg, [] => (([], []), reg)
  | reg, b :: rest =>
    let r := process_single_brand job run_id ts reg b
    let t := process_chunk job run_id ts r.2 rest
    match r.1 with
    | ResultEntry.success .. => ((r.1 :: t.1.1, t.1.2), t.2)
    | ResultEntry.failed .. => ((t.1.1, r.1 :: t.1.2), t.2)

/-- The registry-filtering loop at the top of `process_batch`: brands whose
`needs_processing` is true go to the to-process list, the rest are recorded
as skipped with the returned reason. -/
def filter_brands (reg : Registry) (force : Bool) :
    List Brand → List Brand × List SkipEntry
  | [] => ([], [])
  | b :: rest =>
    let np := needs_processing reg b.brand_name b.website b.parent_company force
    let t := filter_brands reg force rest
    if np.1 then (b :: t.1, t.2)
    else (t.1, { brand := b.brand_name, row := b.row_number,
                 reason := np.2 } :: t.2)

/-- The slicing `brands_to_process[chunk_start:chunk_end]` over
`range(0, total, chunk_size)`.  A zero `chunk_size` would raise
`ValueError` in `range`; the model returns no chunks in that case and all
theorems about chunking assume `chunk_size ≠ 0`. -/
def chunk_list (chunk_size : ℕ) : List Brand → List (List Brand)
  | [] => []
  | b :: rest =>
    match chunk_size with
    | 0 => []
    | n + 1 =>
      (b :: rest).take (n + 1) :: chunk_list (n + 1) ((b :: rest).drop (n + 1))
termination_by l => l.length
decreasing_by
  simp only [List.drop_succ_cons, List.length_cons]
  calc (List.drop n rest).length ≤ rest.length := by
        simp [List.length_drop]
    _ < rest.length + 1 := Nat.lt_succ_self _

/-- Final state of `process_batch`: the returned `self.results`, plus the
in-memory registry, the checkpoints written, and the final
`self.total_cost` / `processed_count`. -/
structure BatchOut where
  results : BatchResults
  registry : Registry
  checkpoints : List Checkpoint
  total_cost : ℚ
  processed_count : ℕ
deriving DecidableEq, Repr

/-- The per-chunk loop of `process_batch`: process the chunk, extend the
result lists, advance `processed_count`, save a `"chunk_complete"`
checkpoint (note `self.total_cost` is updated only *after* the checkpoint,
inside the budget check), and — when a budget limit is set (Python-truthy) —
recompute the estimated total cost `processed_count * cost_per_brand` and
break out of the loop when it meets or exceeds the limit. -/
def chunk_loop (job : Brand → JobOutcome) (run_id ts : Brand → String)
    (budget_limit : Option ℚ) :
    BatchResults → Registry → List Checkpoint → ℚ → ℕ →
    List (List Brand) → BatchOut
  | res, reg, cps, cost, pc, [] => ⟨res, reg, cps, cost, pc⟩
  | res, reg, cps, cost, pc, chunk :: rest =>
    let cr := process_chunk job run_id ts reg chunk
    let res' : BatchResults :=
      { res with
        success := res.success ++ cr.1.1
        failed := res.failed ++ cr.1.2 }
    let pc' := pc + chunk.length
    let cps' := cps ++ [⟨"chunk_complete", pc', res', cost⟩]
    if pyTruthy budget_limit then
      let cost' : ℚ := pc' * cost_per_brand
      if cost' ≥ budget_limit.getD 0 then ⟨res', cr.2, cps', cost', pc'⟩
      else chunk_loop job run_id ts budget_limit res' cr.2 cps' cost' pc' rest
    else chunk_loop job run_id ts budget_limit res' cr.2 cps' cost pc' rest

/-- `ParallelBatchProcessor.process_batch` over an already-loaded brand
list (the Google-Sheets job source is external).  Mirrors the code's order:
empty-sheet early return, the Python-truthy `limit` slice, the registry
filter with its early return when nothing needs processing, then the
chunked processing loop. -/
def process_batch (job : Brand → JobOutcome) (run_id ts : Brand → String)
    (reg0 : Registry) (brands : List Brand) (force : Bool)
    (budget_limit : Option ℚ) (chunk_size : ℕ) (limit : Option ℕ) :
    BatchOut :=
  if brands = [] then ⟨⟨[], [], []⟩, reg0, [], 0, 0⟩
  else
    let brands1 :=
      match limit with
      | some (n + 1) => brands.take (n + 1)
      | _ => brands
    let fl := filter_brands reg0 force brands1
    if fl.1 = [] then ⟨⟨[], [], fl.2⟩, reg0, [], 0, 0⟩
    else
      chunk_loop job run_id ts budget_limit ⟨[], [], fl.2⟩ reg0 [] 0 0
        (chunk_list chunk_size fl.1)

/-! ## Theorems -/

/-- The budget check never produces a `BudgetExceededError`: the only
exception it can throw is the `TypeError` from the mis-called
constructor. -/
theorem check_budget_never_budget_exceeded (t : CostTracker) (c bl : ℚ) :
    t.check_budget ≠ some (PyError.budgetExceededError c bl) := by
  unfold CostTracker.check_budget
  split_ifs with h
  · simp [budget_check_error]
  · simp

/-- C2 counterexample: with `budget_limit = $0.03`, a Tavily record whose
cost brings the total to exactly the limit ("meets" the limit) raises
nothing — the code's comparison is strict (`>`) — and when the total does
strictly exceed the limit (`budget_limit = $0.01`), what is raised is the
`TypeError` from calling `BudgetExceededError(message)` against
`BudgetExceededError.__init__(self, current_cost, budget_limit)`, not a
`BudgetExceededError`. -/
theorem budget_not_raised_when_total_meets_limit :
    (((CostTracker.init (some (3 / 100))).record_tavily_call 30).1.total
      = 3 / 100) ∧
    ((CostTracker.init (some (3 / 100))).record_tavily_call 30).2 = none ∧
    ((CostTracker.init (some (1 / 100))).record_tavily_call 30).2
      = some (PyError.typeError
        "BudgetExceededError.__init__ missing 1 required positional argument: budget_limit") := by
  refine ⟨?_, ?_, ?_⟩
  · norm_num [CostTracker.record_tavily_call, CostTracker.init,
      tavily_per_result]
  · norm_num [CostTracker.record_tavily_call, CostTracker.init,
      CostTracker.check_budget, pyTruthy, tavily_per_result]
  · norm_num [CostTracker.record_tavily_call, CostTracker.init,
      CostTracker.check_budget, budget_check_error, pyTruthy,
      tavily_per_result]

/-- C2 (amended): while a nonzero budget limit is set, each record operation
first accrues the cost into the per-kind and total accumulators, and then
raises synchronously exactly when the new total *strictly exceeds* the
limit — never on an earlier record whose total was at or below the limit —
with the accrual retained.  The exception raised, however, is the
`TypeError` thrown by `raise BudgetExceededError(message)` against a
two-positional-argument `__init__`: a `BudgetExceededError` is never
raised. -/
theorem record_accrues_then_raises_iff_strictly_over
    (t : CostTracker) (l : ℚ) (n i o : ℕ)
    (hl : t.budget_limit = some l) (h0 : l ≠ 0) :
    (t.record_tavily_call n).1.total = t.total + n * tavily_per_result ∧
    (t.record_tavily_call n).1.tavily = t.tavily + n * tavily_per_result ∧
    ((t.record_tavily_call n).2 = some budget_check_error ↔
      (t.record_tavily_call n).1.total > l) ∧
    (∀ c bl, (t.record_tavily_call n).2
      ≠ some (PyError.budgetExceededError c bl)) ∧
    (t.record_llm_call i o).1.total =
      t.total + (i * openrouter_input_per_1m / 1000000 +
        o * openrouter_output_per_1m / 1000000) ∧
    ((t.record_llm_call i o).2 = some budget_check_error ↔
      (t.record_llm_call i o).1.total > l) ∧
    (∀ c bl, (t.record_llm_call i o).2
      ≠ some (PyError.budgetExceededError c bl)) := by
  refine ⟨rfl, rfl, ?_, fun c bl => check_budget_never_budget_exceeded _ c bl,
    rfl, ?_, fun c bl => check_budget_never_budget_exceeded _ c bl⟩ <;>
    simp [CostTracker.record_tavily_call, CostTracker.record_llm_call,
      CostTracker.check_budget, pyTruthy, hl, h0]

/-- Witness for C2 (amended) at `budget_limit = $0.01`, a 30-result Tavily
call, and a 100-in/200-out LLM call. -/
theorem record_accrues_then_raises_iff_strictly_over_witness :
    ((CostTracker.init (some (1 / 100))).record_tavily_call 30).1.total
      = 0 + 30 * tavily_per_result ∧
    ((CostTracker.init (some (1 / 100))).record_tavily_call 30).1.tavily
      = 0 + 30 * tavily_per_result ∧
    (((CostTracker.init (some (1 / 100))).record_tavily_call 30).2
        = some budget_check_error ↔
      ((CostTracker.init (some (1 / 100))).record_tavily_call 30).1.total
        > 1 / 100) ∧
    (∀ c bl, ((CostTracker.init (some (1 / 100))).record_tavily_call 30).2
      ≠ some (PyError.budgetExceededError c bl)) ∧
    ((CostTracker.init (some (1 / 100))).record_llm_call 100 200).1.total
      = 0 + (100 * openrouter_input_per_1m / 1000000 +
          200 * openrouter_output_per_1m / 1000000) ∧
    (((CostTracker.init (some (1 / 100))).record_llm_call 100 200).2
        = some budget_check_error ↔
      ((CostTracker.init (some (1 / 100))).record_llm_call 100 200).1.total
        > 1 / 100) ∧
    (∀ c bl, ((CostTracker.init (some (1 / 100))).record_llm_call 100 200).2
      ≠ some (PyError.budgetExceededError c bl)) :=
  record_accrues_then_raises_iff_strictly_over
    (CostTracker.init (some (1 / 100))) (1 / 100) 30 100 200 rfl (by norm_num)

/-- C10: with `budget_limit` equal to `None` or `0` (both Python-falsy),
budget enforcement is disabled — no record operation raises anything,
whatever the accumulated total — and `get_summary` reports
`budget_remaining = None`. -/
theorem zero_or_none_budget_disables_enforcement
    (t : CostTracker) (n i o : ℕ)
    (h : t.budget_limit = none ∨ t.budget_limit = some 0) :
    (t.record_tavily_call n).2 = none ∧
    (t.record_llm_call i o).2 = none ∧
    t.budget_remaining = none := by
  rcases h with h | h <;>
    simp [CostTracker.record_tavily_call, CostTracker.record_llm_call,
      CostTracker.check_budget, CostTracker.budget_remaining, pyTruthy, h]

/-- Witness for C10: a tracker with `budget_limit = 0` and a large accrued
total still never raises and reports no remaining budget. -/
theorem zero_or_none_budget_disables_enforcement_witness :
    ((((CostTracker.init (some 0)).record_tavily_call 100000).1
        ).record_tavily_call 5).2 = none ∧
    ((((CostTracker.init (some 0)).record_tavily_call 100000).1
        ).record_llm_call 7 9).2 = none ∧
    (((CostTracker.init (some 0)).record_tavily_call 100000).1
        ).budget_remaining = none :=
  zero_or_none_budget_disables_enforcement
    ((CostTracker.init (some 0)).record_tavily_call 100000).1 5 7 9
    (Or.inr rfl)

/-- C8: registry loading is total (this model's `load_registry` is a total
function — every exception in the code's `try` is caught), a missing or
unparseable backing file yields the empty registry, and on that registry
every lookup misses, `needs_processing` reports every identity as a new
brand, and the stats are all zero — as if nothing had ever been recorded. -/
theorem load_registry_missing_or_corrupt_gives_empty :
    load_registry StoredFile.missing = [] ∧
    (∀ raw, load_registry (StoredFile.corrupt raw) = []) ∧
    (∀ n w p, needs_processing (load_registry StoredFile.missing) n w p false
      = (true, "new_brand")) ∧
    (∀ raw n w p,
      needs_processing (load_registry (StoredFile.corrupt raw)) n w p false
        = (true, "new_brand")) ∧
    (∀ n, Registry.find? (load_registry StoredFile.missing) n = none) ∧
    get_stats (load_registry StoredFile.missing) = (0, 0, 0) :=
  ⟨rfl, fun _ => rfl, fun _ _ _ => rfl, fun _ _ _ _ => rfl, fun _ => rfl, rfl⟩

/-- Writing a key and reading it back yields the written record. -/
theorem Registry.find?_set_self (reg : Registry) (n : String)
    (r : RegistryRecord) : (reg.set n r).find? n = some r := by
  induction reg with
  | nil => simp [Registry.set, Registry.find?, List.lookup]
  | cons kv rest ih =>
    obtain ⟨k, v⟩ := kv
    by_cases h : k = n
    · subst h
      simp [Registry.set, Registry.find?, List.lookup]
    · have hnk : (n == k) = false := beq_eq_false_iff_ne.mpr (Ne.symm h)
      simp only [Registry.find?] at ih
      simp [Registry.set, Registry.find?, List.lookup, h, hnk, ih]

/-- Writing one key leaves every other key's record unchanged. -/
theorem Registry.find?_set_ne (reg : Registry) (n m : String)
    (r : RegistryRecord) (h : m ≠ n) :
    (reg.set n r).find? m = reg.find? m := by
  induction reg with
  | nil =>
    have hmn : (m == n) = false := beq_eq_false_iff_ne.mpr h
    simp [Registry.set, Registry.find?, List.lookup, hmn]
  | cons kv rest ih =>
    obtain ⟨k, v⟩ := kv
    simp only [Registry.find?] at ih
    by_cases hk : k = n
    · subst hk
      have hmk : (m == k) = false := beq_eq_false_iff_ne.mpr h
      simp [Registry.set, Registry.find?, List.lookup, hmk]
    · by_cases hm : m = k
      · subst hm
        simp [Registry.set, Registry.find?, List.lookup, hk]
      · have hmk : (m == k) = false := beq_eq_false_iff_ne.mpr hm
        simp [Registry.set, Registry.find?, List.lookup, hk, hmk, ih]

/-- C9: for an identity whose existing record has a `last_success_at`
value, `record_failure` rewrites the record with the fresh input hash,
`failed` status, new failure timestamp, new run id and the error message
truncated to 500 characters, while `last_success_at` keeps its original
value (and the `outputs` key is dropped, since the failure record is
rebuilt from scratch). -/
theorem record_failure_preserves_last_success_at
    (reg : Registry) (n : String) (w p : Option String)
    (rid err ts ts0 : String) (old : RegistryRecord)
    (hfind : reg.find? n = some old)
    (hsucc : old.last_success_at = some ts0) :
    (record_failure reg n w p rid err ts).find? n = some
      { last_input_hash := compute_input_hash n w p
        status := Status.failed
        last_success_at := some ts0
        last_fail_at := some ts
        last_run_id := rid
        last_error := some (err.take 500)
        outputs := none } := by
  simp [record_failure, hfind, hsucc, Registry.find?_set_self]

/-- Witness for C9 on a one-record registry whose record carries
`last_success_at = "T0"`. -/
theorem record_failure_preserves_last_success_at_witness :
    (record_failure
        [("acme",
          { last_input_hash := compute_input_hash "acme" none none
            status := Status.success
            last_success_at := some "T0"
            last_fail_at := none
            last_run_id := "r1"
            last_error := none
            outputs := some [] })]
        "acme" none none "r2" "boom" "T1").find? "acme" = some
      { last_input_hash := compute_input_hash "acme" none none
        status := Status.failed
        last_success_at := some "T0"
        last_fail_at := some "T1"
        last_run_id := "r2"
        last_error := some ("boom".take 500)
        outputs := none } :=
  record_failure_preserves_last_success_at _ "acme" none none "r2" "boom"
    "T1" "T0" _ rfl rfl

/-- C3 counterexample: for an unknown identity the reason string returned
by the code is `"new_brand"`, not the claim's `"new_item"`. -/
theorem needs_processing_unknown_reason_is_new_brand :
    needs_processing [] "acme" none none false = (true, "new_brand") ∧
    needs_processing [] "acme" none none false ≠ (true, "new_item") := by
  exact ⟨rfl, by decide⟩

/-- C3 (amended): `needs_processing` with `force = true` returns
`(true, "forced")` regardless of registry state; with `force = false` it
returns `false` (reason `"already_processed"`) iff a record exists for the
identity with status `success` and a stored hash equal to the canonical
hash of the payload; otherwise the reason is that of the first matching
condition — unknown identity `"new_brand"`, stored hash differs
`"inputs_changed"`, stored status failed `"retry_failed"`. -/
theorem needs_processing_characterization (reg : Registry) (n : String)
    (w p : Option String) :
    needs_processing reg n w p true = (true, "forced") ∧
    ((needs_processing reg n w p false).1 = false ↔
      ∃ r, reg.find? n = some r ∧ r.status = Status.success ∧
        r.last_input_hash = compute_input_hash n w p) ∧
    (reg.find? n = none →
      needs_processing reg n w p false = (true, "new_brand")) ∧
    (∀ r, reg.find? n = some r →
      r.last_input_hash ≠ compute_input_hash n w p →
      needs_processing reg n w p false = (true, "inputs_changed")) ∧
    (∀ r, reg.find? n = some r →
      r.last_input_hash = compute_input_hash n w p →
      r.status = Status.failed →
      needs_processing reg n w p false = (true, "retry_failed")) ∧
    (∀ r, reg.find? n = some r →
      r.last_input_hash = compute_input_hash n w p →
      r.status = Status.success →
      needs_processing reg n w p false = (false, "already_processed")) := by
  refine ⟨rfl, ?_, ?_, ?_, ?_, ?_⟩
  · cases hf : reg.find? n with
    | none => simp [needs_processing, hf]
    | some r =>
      by_cases hh : r.last_input_hash = compute_input_hash n w p
      · cases hs : r.status <;>
          simp [needs_processing, hf, hh, hs]
      · simp [needs_processing, hf, hh]
  · intro hf
    simp [needs_processing, hf]
  · intro r hf hh
    simp [needs_processing, hf, hh]
  · intro r hf hh hs
    simp [needs_processing, hf, hh, hs]
  · intro r hf hh hs
    simp [needs_processing, hf, hh, hs]

/-- Witness for C3 (amended) on a registry with one successful record:
forced reprocessing, the skip iff, and each reason branch at its concrete
instance. -/
theorem needs_processing_characterization_witness :
    needs_processing
        [("acme",
          { last_input_hash := compute_input_hash "acme" none none
            status := Status.success
            last_success_at := some "T0"
            last_fail_at := none
            last_run_id := "r1"
            last_error := none
            outputs := some [] })]
        "acme" none none true = (true, "forced") :=
  (needs_processing_characterization _ "acme" none none).1

/-- One `acquire` step keeps the token count within `[0, max_tokens]`
(whatever the incoming count was) and leaves `max_tokens` unchanged. -/
theorem acquire_tokens_bounds (st : RateLimiter) (now : ℚ)
    (h : 0 ≤ st.max_tokens) :
    0 ≤ ((st.acquire now).2).tokens ∧
    ((st.acquire now).2).tokens ≤ st.max_tokens ∧
    ((st.acquire now).2).max_tokens = st.max_tokens := by
  simp only [RateLimiter.acquire]
  split_ifs with hlt
  · simpa using h
  · push_neg at hlt
    have hle : min st.max_tokens
        (st.tokens + (now - st.last_update) / st.interval) ≤ st.max_tokens :=
      min_le_left _ _
    exact ⟨by linarith, by linarith, rfl⟩

/-- Iterated `acquire` keeps the token count within `[0, max_tokens]` and
never changes `max_tokens`, from any in-range starting state. -/
theorem acquireSeq_tokens_bounds (times : List ℚ) (st : RateLimiter)
    (h0 : 0 ≤ st.tokens) (h1 : st.tokens ≤ st.max_tokens) :
    0 ≤ ((st.acquireSeq times).2).tokens ∧
    ((st.acquireSeq times).2).tokens ≤ ((st.acquireSeq times).2).max_tokens ∧
    ((st.acquireSeq times).2).max_tokens = st.max_tokens := by
  induction times generalizing st with
  | nil => exact ⟨h0, h1, rfl⟩
  | cons t ts ih =>
    have hmax : 0 ≤ st.max_tokens := le_trans h0 h1
    have step := acquire_tokens_bounds st t hmax
    have tail := ih (st.acquire t).2 step.1 (step.2.2 ▸ step.2.1)
    simp only [RateLimiter.acquireSeq]
    exact ⟨tail.1, tail.2.1, by rw [tail.2.2, step.2.2]⟩

/-- C7: over every sequence of `acquire()` calls (at arbitrary wall-clock
times, monotone or not), the token count of a limiter initialized with
capacity `burst_size` stays within `[0, burst_size]`: refill is capped at
the maximum and consumption never drives the count below zero. -/
theorem tokens_bounded_invariant (calls_per_minute burst_size : ℕ)
    (t0 : ℚ) (times : List ℚ) :
    0 ≤ (((RateLimiter.init calls_per_minute burst_size t0).acquireSeq
      times).2).tokens ∧
    (((RateLimiter.init calls_per_minute burst_size t0).acquireSeq
      times).2).tokens ≤ (burst_size : ℚ) := by
  have h := acquireSeq_tokens_bounds times
    (RateLimiter.init calls_per_minute burst_size t0)
    (Nat.cast_nonneg burst_size) (le_refl _)
  refine ⟨h.1, ?_⟩
  have h2 := h.2.1
  rw [h.2.2] at h2
  exact h2

/-- Unfolding equation for `acquireSeq` on a nonempty list of call times. -/
theorem RateLimiter.acquireSeq_cons (st : RateLimiter) (t : ℚ)
    (ts : List ℚ) :
    st.acquireSeq (t :: ts) =
      ((st.acquire t).1 :: ((st.acquire t).2.acquireSeq ts).1,
       ((st.acquire t).2.acquireSeq ts).2) := rfl

/-- Draining a full-enough bucket with immediate calls: starting from a
state holding exactly `k` tokens (with capacity at least `k`) at time `t0`,
the first `k` immediate `acquire()` calls wait `0` and the `(k+1)`-th waits
exactly one refill interval. -/
theorem acquireSeq_drain (k : ℕ) (st : RateLimiter) (t0 : ℚ)
    (htok : st.tokens = (k : ℚ)) (hlu : st.last_update = t0)
    (hmax : (k : ℚ) ≤ st.max_tokens) :
    (st.acquireSeq (List.replicate (k + 1) t0)).1
      = List.replicate k 0 ++ [st.interval] := by
  induction k generalizing st with
  | zero =>
    have hmax0 : (0 : ℚ) ≤ st.max_tokens := by exact_mod_cast hmax
    have h0 : min st.max_tokens
        (st.tokens + (t0 - st.last_update) / st.interval) = 0 := by
      rw [htok, hlu]
      simp [min_eq_right hmax0]
    simp [RateLimiter.acquireSeq, RateLimiter.acquire, h0]
  | succ k ih =>
    have hcast : ((k : ℚ) + 1) = ((k + 1 : ℕ) : ℚ) := by push_cast; ring
    have h1 : min st.max_tokens
        (st.tokens + (t0 - st.last_update) / st.interval)
        = (k : ℚ) + 1 := by
      rw [htok, hlu]
      simp only [sub_self, zero_div, add_zero]
      rw [min_eq_right hmax]
      push_cast
      ring
    have hnlt : ¬ min st.max_tokens
        (st.tokens + (t0 - st.last_update) / st.interval) < 1 := by
      rw [h1]
      have : (0 : ℚ) ≤ (k : ℚ) := Nat.cast_nonneg k
      linarith
    have hacq : st.acquire t0 =
        (0, { st with tokens := ((k : ℚ) + 1) - 1, last_update := t0 }) := by
      simp only [RateLimiter.acquire]
      rw [if_neg hnlt, h1]
    have hstep := ih { st with tokens := ((k : ℚ) + 1) - 1, last_update := t0 }
      (by simp) rfl (by simpa using le_trans (by linarith [Nat.cast_nonneg (α := ℚ) k]) hmax)
    have hrep : List.replicate (k + 1 + 1) t0 = t0 :: List.replicate (k + 1) t0 :=
      List.replicate_succ t0 (k + 1)
    simp only [hrep, RateLimiter.acquireSeq_cons, hacq]
    rw [hstep]
    simp [List.replicate_succ]

/-- C6: each `acquire()` first refills proportionally to elapsed time
(capped at capacity); when the refilled count is below one token the call
waits exactly the deficit `(1 - tokens)/R` seconds, where
`R = calls_per_minute/60` is the refill rate in tokens per second, and
leaves an empty bucket; when a full token is available it returns a wait of
`0` and consumes one token.  Consequently, from a freshly initialized
(full) bucket of capacity `burst_size`, issuing `burst_size + 1`
back-to-back calls returns a wait of `0` for the first `burst_size` calls
and exactly `1/R` seconds for the last one. -/
theorem acquire_deficit_wait_and_burst_scenario
    (calls_per_minute burst_size : ℕ) (t0 now : ℚ) (st : RateLimiter)
    (hc : 0 < calls_per_minute) (hb : 0 < burst_size)
    (hi : st.interval = 60 / (calls_per_minute : ℚ)) :
    (min st.max_tokens (st.tokens + (now - st.last_update) / st.interval) < 1 →
      (st.acquire now).1 =
        (1 - min st.max_tokens
          (st.tokens + (now - st.last_update) / st.interval))
          / ((calls_per_minute : ℚ) / 60) ∧
      (st.acquire now).2.tokens = 0) ∧
    (1 ≤ min st.max_tokens (st.tokens + (now - st.last_update) / st.interval) →
      (st.acquire now).1 = 0 ∧
      (st.acquire now).2.tokens =
        min st.max_tokens
          (st.tokens + (now - st.last_update) / st.interval) - 1) ∧
    ((RateLimiter.init calls_per_minute burst_size t0).acquireSeq
        (List.replicate (burst_size + 1) t0)).1
      = List.replicate burst_size 0 ++ [1 / ((calls_per_minute : ℚ) / 60)] := by
  have hc0 : ((calls_per_minute : ℕ) : ℚ) ≠ 0 :=
    Nat.cast_ne_zero.mpr hc.ne'
  refine ⟨?_, ?_, ?_⟩
  · intro hlt
    constructor
    · simp only [RateLimiter.acquire, if_pos hlt]
      rw [hi]
      field_simp
    · simp only [RateLimiter.acquire, if_pos hlt]
      norm_num
  · intro hge
    have hnlt := not_lt.mpr hge
    simp only [RateLimiter.acquire, if_neg hnlt]
    exact ⟨trivial, trivial⟩
  · have hdrain := acquireSeq_drain burst_size
      (RateLimiter.init calls_per_minute burst_size t0) t0 rfl rfl (le_refl _)
    rw [hdrain]
    congr 1
    rw [one_div_div]
    rfl

/-- Witness for C6 at `calls_per_minute = 60`, `burst_size = 2`: three
back-to-back calls from a full bucket wait `[0, 0, 1]` seconds (the third
waits `1/R = 1` second). -/
theorem acquire_deficit_wait_and_burst_scenario_witness :
    ((RateLimiter.init 60 2 0).acquireSeq (List.replicate (2 + 1) 0)).1
      = List.replicate 2 0 ++ [1 / (((60 : ℕ) : ℚ) / 60)] :=
  (acquire_deficit_wait_and_burst_scenario 60 2 0 0 (RateLimiter.init 60 2 0)
    (by norm_num) (by norm_num) rfl).2.2

/-- The `self.results` dictionary never has a `"stop_reason"` key: it is
created with exactly the keys `"success"`, `"failed"`, `"skipped"` and no
code path adds another. -/
theorem batch_results_field_stop_reason (r : BatchResults) :
    r.field "stop_reason" = none := by
  cases r
  rfl

/-- C1 (amended): after a chunk completes, when a (truthy) budget limit is
set the orchestrator compares its own estimate
`processed_count * cost_per_brand` — not a Cost Meter ledger — against the
limit; if the estimate meets or exceeds the limit, no further chunk is
dispatched (the loop's result is the same as if the remaining chunks did
not exist), and the returned summary dictionary carries no `"stop_reason"`
key at all. -/
theorem budget_stop_halts_further_dispatch
    (job : Brand → JobOutcome) (run_id ts : Brand → String) (l : ℚ)
    (res : BatchResults) (reg : Registry) (cps : List Checkpoint) (cost : ℚ)
    (pc : ℕ) (chunk : List Brand) (rest : List (List Brand))
    (hl : l ≠ 0)
    (hstop : ((pc + chunk.length : ℕ) : ℚ) * cost_per_brand ≥ l) :
    chunk_loop job run_id ts (some l) res reg cps cost pc (chunk :: rest)
      = chunk_loop job run_id ts (some l) res reg cps cost pc [chunk] ∧
    (chunk_loop job run_id ts (some l) res reg cps cost pc
        (chunk :: rest)).results.field "stop_reason" = none := by
  have hpt : pyTruthy (some l) = true := by simp [pyTruthy, hl]
  have hge : ((pc + chunk.length : ℕ) : ℚ) * cost_per_brand
      ≥ (some l).getD 0 := hstop
  constructor
  · simp only [chunk_loop, hpt, if_true]
    rw [if_pos hge, if_pos hge]
  · exact batch_results_field_stop_reason _

/-- Witness for C1 (amended): with a `$0.05` budget and `$0.05`-per-brand
estimate, after the first single-brand chunk the loop stops — the second
chunk is never dispatched — and the summary has no `"stop_reason"` key. -/
theorem budget_stop_halts_further_dispatch_witness :
    chunk_loop (fun _ => JobOutcome.ok []) (fun b => b.brand_name)
        (fun _ => "t") (some (1 / 20)) ⟨[], [], []⟩ [] [] 0 0
        ([⟨"a", none, none, 1⟩] :: [[⟨"b", none, none, 2⟩]])
      = chunk_loop (fun _ => JobOutcome.ok []) (fun b => b.brand_name)
        (fun _ => "t") (some (1 / 20)) ⟨[], [], []⟩ [] [] 0 0
        [[⟨"a", none, none, 1⟩]] ∧
    (chunk_loop (fun _ => JobOutcome.ok []) (fun b => b.brand_name)
        (fun _ => "t") (some (1 / 20)) ⟨[], [], []⟩ [] [] 0 0
        ([⟨"a", none, none, 1⟩] :: [[⟨"b", none, none, 2⟩]])).results.field
      "stop_reason" = none :=
  budget_stop_halts_further_dispatch (fun _ => JobOutcome.ok [])
    (fun b => b.brand_name) (fun _ => "t") (1 / 20) ⟨[], [], []⟩ [] [] 0 0
    [⟨"a", none, none, 1⟩] [[⟨"b", none, none, 2⟩]]
    (by norm_num) (by norm_num [cost_per_brand])

/-- C1 counterexample: a concrete budget-stopped run — three brands, chunk
size 1, budget `$0.05`, estimated cost `$0.05`/brand — stops after the
first chunk (only 1 of 3 brands processed), yet the returned summary has
no `"stop_reason"` entry at all (so it cannot equal `"budget"`): the code
only logs a warning and breaks, and it compares an estimate
`processed_count * cost_per_brand`, not a Cost Meter ledger. -/
theorem budget_stop_summary_lacks_stop_reason_key :
    (process_batch (fun _ => JobOutcome.ok []) (fun b => b.brand_name)
        (fun _ => "t") []
        [⟨"a", none, none, 1⟩, ⟨"b", none, none, 2⟩, ⟨"c", none, none, 3⟩]
        false (some (1 / 20)) 1 none).processed_count = 1 ∧
    (process_batch (fun _ => JobOutcome.ok []) (fun b => b.brand_name)
        (fun _ => "t") []
        [⟨"a", none, none, 1⟩, ⟨"b", none, none, 2⟩, ⟨"c", none, none, 3⟩]
        false (some (1 / 20)) 1 none).results.field "stop_reason" = none := by
  refine ⟨?_, batch_results_field_stop_reason _⟩
  norm_num [process_batch, filter_brands, needs_processing, Registry.find?,
    List.lookup, chunk_list, chunk_loop, process_chunk, process_single_brand,
    record_success, Registry.set, pyTruthy, cost_per_brand, compute_input_hash]
  simp

/-- Concatenating the chunks produced by the `range(0, total, chunk_size)`
slicing recovers the original list (for a nonzero chunk size). -/
theorem chunk_list_flatten (n : ℕ) (l : List Brand) (hn : n ≠ 0) :
    (chunk_list n l).flatten = l := by
  induction n, l using chunk_list.induct with
  | case1 n => simp [chunk_list]
  | case2 b rest => exact absurd rfl hn
  | case3 b rest m ih =>
    rw [chunk_list]
    simp only [List.flatten_cons]
    rw [ih (Nat.succ_ne_zero m)]
    exact List.take_append_drop _ _

/-- Every brand of a chunk yields exactly one result entry (success or
failed): no worker outcome is dropped and none aborts the chunk. -/
theorem process_chunk_count (job : Brand → JobOutcome)
    (rid ts : Brand → String) :
    ∀ (chunk : List Brand) (reg : Registry),
    (process_chunk job rid ts reg chunk).1.1.length +
      (process_chunk job rid ts reg chunk).1.2.length = chunk.length := by
  intro chunk
  induction chunk with
  | nil => intro reg; simp [process_chunk]
  | cons b rest ih =>
    intro reg
    cases hr : (process_single_brand job rid ts reg b).1 <;>
      · simp only [process_chunk, hr, List.length_cons]
        have h := ih (process_single_brand job rid ts reg b).2
        omega

/-- With no budget limit the chunk loop drains every chunk, one result
entry per brand. -/
theorem chunk_loop_none_counts (job : Brand → JobOutcome)
    (rid ts : Brand → String) :
    ∀ (chunks : List (List Brand)) (res : BatchResults) (reg : Registry)
      (cps : List Checkpoint) (cost : ℚ) (pc : ℕ),
    (chunk_loop job rid ts none res reg cps cost pc
        chunks).results.success.length +
      (chunk_loop job rid ts none res reg cps cost pc
        chunks).results.failed.length
      = res.success.length + res.failed.length +
          (chunks.map List.length).sum := by
  intro chunks
  induction chunks with
  | nil => intro res reg cps cost pc; simp [chunk_loop]
  | cons c cs ih =>
    intro res reg cps cost pc
    have hpt : pyTruthy (none : Option ℚ) = false := rfl
    simp only [chunk_loop, hpt, Bool.false_eq_true, if_false]
    rw [ih]
    simp only [List.length_append, List.map_cons, List.sum_cons]
    have h := process_chunk_count job rid ts c reg
    omega

/-- Every checkpoint ever appended by the chunk loop carries the reason
`"chunk_complete"` — the loop writes no other reason string. -/
theorem chunk_loop_checkpoint_reasons (job : Brand → JobOutcome)
    (rid ts : Brand → String) (bl : Option ℚ) :
    ∀ (chunks : List (List Brand)) (res : BatchResults) (reg : Registry)
      (cps : List Checkpoint) (cost : ℚ) (pc : ℕ) (cp : Checkpoint),
    cp ∈ (chunk_loop job rid ts bl res reg cps cost pc chunks).checkpoints →
    cp ∈ cps ∨ cp.reason = "chunk_complete" := by
  intro chunks
  induction chunks with
  | nil => intro res reg cps cost pc cp h; exact Or.inl h
  | cons c cs ih =>
    intro res reg cps cost pc cp h
    simp only [chunk_loop] at h
    by_cases hb : pyTruthy bl = true
    · rw [if_pos hb] at h
      by_cases hc : ((pc + c.length : ℕ) : ℚ) * cost_per_brand ≥ bl.getD 0
      · rw [if_pos hc] at h
        rcases List.mem_append.mp h with h | h
        · exact Or.inl h
        · right
          simp only [List.mem_singleton] at h
          rw [h]
      · rw [if_neg hc] at h
        rcases ih _ _ _ _ _ _ h with h | h
        · rcases List.mem_append.mp h with h | h
          · exact Or.inl h
          · right
            simp only [List.mem_singleton] at h
            rw [h]
        · exact Or.inr h
    · rw [if_neg hb] at h
      rcases ih _ _ _ _ _ _ h with h | h
      · rcases List.mem_append.mp h with h | h
        · exact Or.inl h
        · right
          simp only [List.mem_singleton] at h
          rw [h]
      · exact Or.inr h

/-- C4 (amended): no job outcome aborts the batch.  Every per-item error —
including every exception raised by the job function, which is what a
"Fatal" outcome or a `BudgetExceededError` raised inside the job becomes —
is absorbed by the worker's `except` arms as a recorded failure, the batch
continues through all chunks (with no budget limit, one result entry per
filtered-in brand), every checkpoint written has reason
`"chunk_complete"` (no `"fatal_error"` checkpoint exists in the code), and
`process_batch` is total: no error is re-raised to its caller. -/
theorem all_item_errors_absorbed_batch_continues
    (job : Brand → JobOutcome) (rid ts : Brand → String) (reg0 : Registry)
    (brands : List Brand) (force : Bool) (chunk_size : ℕ)
    (hcs : chunk_size ≠ 0) :
    (process_batch job rid ts reg0 brands force none chunk_size
        none).results.success.length +
      (process_batch job rid ts reg0 brands force none chunk_size
        none).results.failed.length
      = (filter_brands reg0 force brands).1.length ∧
    ∀ cp ∈ (process_batch job rid ts reg0 brands force none chunk_size
        none).checkpoints, cp.reason = "chunk_complete" := by
  by_cases hbr : brands = []
  · subst hbr
    simp [process_batch, filter_brands]
  · by_cases hfl : (filter_brands reg0 force brands).1 = []
    · simp [process_batch, hbr, hfl]
    · have hout : process_batch job rid ts reg0 brands force none chunk_size
          none
        = chunk_loop job rid ts none
            ⟨[], [], (filter_brands reg0 force brands).2⟩
            reg0 [] 0 0
            (chunk_list chunk_size (filter_brands reg0 force brands).1) := by
        simp [process_batch, hbr, hfl]
      rw [hout]
      constructor
      · rw [chunk_loop_none_counts]
        have hj := chunk_list_flatten chunk_size
          (filter_brands reg0 force brands).1 hcs
        have hl : ((chunk_list chunk_size
            (filter_brands reg0 force brands).1).map List.length).sum
            = (filter_brands reg0 force brands).1.length := by
          rw [← List.length_flatten, hj]
        simp [hl]
      · intro cp hcp
        rcases chunk_loop_checkpoint_reasons job rid ts none _ _ _ _ _ _ _ hcp
          with h | h
        · exact absurd h (List.not_mem_nil cp)
        · exact h

/-- Witness for C4 (amended): two brands whose jobs both raise are both
absorbed as failures, the batch continues to the second chunk, and both
checkpoints read `"chunk_complete"`. -/
theorem all_item_errors_absorbed_batch_continues_witness :
    (process_batch (fun _ => JobOutcome.exn "boom") (fun b => b.brand_name)
        (fun _ => "t") [] [⟨"a", none, none, 1⟩, ⟨"b", none, none, 2⟩]
        false none 1 none).results.success.length +
      (process_batch (fun _ => JobOutcome.exn "boom") (fun b => b.brand_name)
        (fun _ => "t") [] [⟨"a", none, none, 1⟩, ⟨"b", none, none, 2⟩]
        false none 1 none).results.failed.length
      = (filter_brands [] false
          [⟨"a", none, none, 1⟩, ⟨"b", none, none, 2⟩]).1.length ∧
    ∀ cp ∈ (process_batch (fun _ => JobOutcome.exn "boom")
        (fun b => b.brand_name) (fun _ => "t") []
        [⟨"a", none, none, 1⟩, ⟨"b", none, none, 2⟩]
        false none 1 none).checkpoints, cp.reason = "chunk_complete" :=
  all_item_errors_absorbed_batch_continues (fun _ => JobOutcome.exn "boom")
    (fun b => b.brand_name) (fun _ => "t") []
    [⟨"a", none, none, 1⟩, ⟨"b", none, none, 2⟩] false 1 one_ne_zero

/-- C4 counterexample: the spec's own scenario — 10 items, chunk size 4,
item 3's job raises ("Fatal") — does not abort: all 10 items are
dispatched and processed (items 5–10 included), the failure is recorded as
an ordinary failed entry, and the three checkpoints all carry reason
`"chunk_complete"` (none says `"fatal_error"`, and nothing is re-raised). -/
theorem fatal_outcome_does_not_abort_batch :
    (process_batch
        (fun b => if b.brand_name = "i3" then JobOutcome.exn "fatal"
          else JobOutcome.ok [])
        (fun b => b.brand_name) (fun _ => "t") []
        [⟨"i1", none, none, 1⟩, ⟨"i2", none, none, 2⟩, ⟨"i3", none, none, 3⟩,
         ⟨"i4", none, none, 4⟩, ⟨"i5", none, none, 5⟩, ⟨"i6", none, none, 6⟩,
         ⟨"i7", none, none, 7⟩, ⟨"i8", none, none, 8⟩, ⟨"i9", none, none, 9⟩,
         ⟨"i10", none, none, 10⟩]
        false none 4 none).processed_count = 10 ∧
    (process_batch
        (fun b => if b.brand_name = "i3" then JobOutcome.exn "fatal"
          else JobOutcome.ok [])
        (fun b => b.brand_name) (fun _ => "t") []
        [⟨"i1", none, none, 1⟩, ⟨"i2", none, none, 2⟩, ⟨"i3", none, none, 3⟩,
         ⟨"i4", none, none, 4⟩, ⟨"i5", none, none, 5⟩, ⟨"i6", none, none, 6⟩,
         ⟨"i7", none, none, 7⟩, ⟨"i8", none, none, 8⟩, ⟨"i9", none, none, 9⟩,
         ⟨"i10", none, none, 10⟩]
        false none 4 none).results.failed
      = [ResultEntry.failed "i3" 3 "fatal"] ∧
    (process_batch
        (fun b => if b.brand_name = "i3" then JobOutcome.exn "fatal"
          else JobOutcome.ok [])
        (fun b => b.brand_name) (fun _ => "t") []
        [⟨"i1", none, none, 1⟩, ⟨"i2", none, none, 2⟩, ⟨"i3", none, none, 3⟩,
         ⟨"i4", none, none, 4⟩, ⟨"i5", none, none, 5⟩, ⟨"i6", none, none, 6⟩,
         ⟨"i7", none, none, 7⟩, ⟨"i8", none, none, 8⟩, ⟨"i9", none, none, 9⟩,
         ⟨"i10", none, none, 10⟩]
        false none 4 none).checkpoints.map Checkpoint.reason
      = ["chunk_complete", "chunk_complete", "chunk_complete"] := by
  refine ⟨?_, ?_, ?_⟩ <;>
    · norm_num [process_batch, filter_brands, needs_processing, Registry.find?,
        List.lookup, chunk_list, chunk_loop, process_chunk,
        process_single_brand, record_success, record_failure, Registry.set,
        pyTruthy, cost_per_brand, compute_input_hash, pyOrNone]
      simp

/-- The worker's `website or None` / `parent_company or None` normalization
does not change the canonical input hash (both the empty string and `None`
normalize to `""` before hashing). -/
theorem compute_input_hash_pyOrNone (n : String) (w p : Option String) :
    compute_input_hash n (pyOrNone w) (pyOrNone p)
      = compute_input_hash n w p := by
  have hw : ((pyOrNone w).getD "").trim = (w.getD "").trim := by
    cases w with
    | none => rfl
    | some s =>
      by_cases hs : s = ""
      · subst hs; simp [pyOrNone]
      · simp [pyOrNone, hs]
  have hp : ((pyOrNone p).getD "").trim = (p.getD "").trim := by
    cases p with
    | none => rfl
    | some s =>
      by_cases hs : s = ""
      · subst hs; simp [pyOrNone]
      · simp [pyOrNone, hs]
  simp [compute_input_hash, hw, hp]

/-- A skip decision implies a stored successful record with the current
hash. -/
theorem needs_processing_false_spec (reg : Registry) (n : String)
    (w p : Option String)
    (h : (needs_processing reg n w p false).1 = false) :
    ∃ r, reg.find? n = some r ∧ r.status = Status.success ∧
      r.last_input_hash = compute_input_hash n w p := by
  cases hf : reg.find? n with
  | none => simp [needs_processing, hf] at h
  | some r =>
    by_cases hh : r.last_input_hash = compute_input_hash n w p
    · cases hs : r.status
      · exact ⟨r, rfl, hs, hh⟩
      · simp [needs_processing, hf, hh, hs] at h
    · simp [needs_processing, hf, hh] at h

/-- A stored successful record with the current hash yields a skip. -/
theorem needs_processing_false_intro (reg : Registry) (n : String)
    (w p : Option String) (r : RegistryRecord)
    (hf : reg.find? n = some r) (hs : r.status = Status.success)
    (hh : r.last_input_hash = compute_input_hash n w p) :
    needs_processing reg n w p false = (false, "already_processed") := by
  simp [needs_processing, hf, hs, hh]

/-- Processing one brand leaves every other identity's record unchanged. -/
theorem process_single_brand_find_ne (job : Brand → JobOutcome)
    (rid ts : Brand → String) (reg : Registry) (b : Brand) (m : String)
    (h : b.brand_name ≠ m) :
    Registry.find? (process_single_brand job rid ts reg b).2 m
      = reg.find? m := by
  cases hj : job b <;>
    simp [process_single_brand, hj, record_success, record_failure,
      Registry.find?_set_ne _ _ _ _ (Ne.symm h)]

/-- Processing one brand whose job succeeds leaves a success record with
the canonical hash of its payload. -/
theorem process_single_brand_ok_find (job : Brand → JobOutcome)
    (rid ts : Brand → String) (reg : Registry) (b : Brand)
    (o : List (String × String)) (hj : job b = JobOutcome.ok o) :
    Registry.find? (process_single_brand job rid ts reg b).2 b.brand_name
      = some
        { last_input_hash :=
            compute_input_hash b.brand_name b.website b.parent_company
          status := Status.success
          last_success_at := some (ts b)
          last_fail_at := none
          last_run_id := rid b
          last_error := none
          outputs := some o } := by
  simp [process_single_brand, hj, record_success, Registry.find?_set_self,
    compute_input_hash_pyOrNone]

/-- The registry after a chunk is the registry after its head's worker
followed by the tail. -/
theorem process_chunk_snd_cons (job : Brand → JobOutcome)
    (rid ts : Brand → String) (reg : Registry) (a : Brand)
    (rest : List Brand) :
    (process_chunk job rid ts reg (a :: rest)).2
      = (process_chunk job rid ts
          (process_single_brand job rid ts reg a).2 rest).2 := by
  cases hr : (process_single_brand job rid ts reg a).1 <;>
    simp [process_chunk, hr]

/-- Processing a chunk leaves the records of identities outside the chunk
unchanged. -/
theorem process_chunk_snd_find_not_mem (job : Brand → JobOutcome)
    (rid ts : Brand → String) :
    ∀ (l : List Brand) (reg : Registry) (m : String),
    (∀ b ∈ l, b.brand_name ≠ m) →
    Registry.find? (process_chunk job rid ts reg l).2 m = reg.find? m := by
  intro l
  induction l with
  | nil => intro reg m _; simp [process_chunk]
  | cons a rest ih =>
    intro reg m hne
    rw [process_chunk_snd_cons]
    rw [ih _ _ (fun b hb => hne b (List.mem_cons_of_mem a hb))]
    exact process_single_brand_find_ne job rid ts reg a m
      (hne a (List.mem_cons_self a rest))

/-- Registry effect of processing a concatenation of chunks. -/
theorem process_chunk_snd_append (job : Brand → JobOutcome)
    (rid ts : Brand → String) :
    ∀ (c d : List Brand) (reg : Registry),
    (process_chunk job rid ts reg (c ++ d)).2
      = (process_chunk job rid ts (process_chunk job rid ts reg c).2 d).2 := by
  intro c
  induction c with
  | nil => intro d reg; simp [process_chunk]
  | cons a rest ih =>
    intro d reg
    rw [List.cons_append, process_chunk_snd_cons, process_chunk_snd_cons, ih]

/-- With no budget limit, the registry after the chunk loop is the registry
after processing the concatenation of its chunks in order. -/
theorem chunk_loop_none_registry (job : Brand → JobOutcome)
    (rid ts : Brand → String) :
    ∀ (chunks : List (List Brand)) (res : BatchResults) (reg : Registry)
      (cps : List Checkpoint) (cost : ℚ) (pc : ℕ),
    (chunk_loop job rid ts none res reg cps cost pc chunks).registry
      = (process_chunk job rid ts reg chunks.flatten).2 := by
  intro chunks
  induction chunks with
  | nil => intro res reg cps cost pc; simp [chunk_loop, process_chunk]
  | cons c cs ih =>
    intro res reg cps cost pc
    have hpt : pyTruthy (none : Option ℚ) = false := rfl
    simp only [chunk_loop, hpt, Bool.false_eq_true, if_false]
    rw [ih, List.flatten_cons, process_chunk_snd_append]

/-- After processing a list of brands with distinct names whose jobs all
succeed, every one of them has a success record carrying the canonical
hash of its payload. -/
theorem process_chunk_all_ok_find (job : Brand → JobOutcome)
    (rid ts : Brand → String) :
    ∀ (l : List Brand) (reg : Registry),
    (∀ b ∈ l, ∃ o, job b = JobOutcome.ok o) →
    (l.map Brand.brand_name).Nodup →
    ∀ b ∈ l, ∃ r,
      Registry.find? (process_chunk job rid ts reg l).2 b.brand_name
        = some r ∧
      r.status = Status.success ∧
      r.last_input_hash
        = compute_input_hash b.brand_name b.website b.parent_company := by
  intro l
  induction l with
  | nil => intro reg _ _ b hb; exact absurd hb (List.not_mem_nil b)
  | cons a rest ih =>
    intro reg hok hnd b hb
    rw [process_chunk_snd_cons]
    simp only [List.map_cons, List.nodup_cons] at hnd
    rcases List.mem_cons.mp hb with rfl | hb
    · obtain ⟨o, hj⟩ := hok b (List.mem_cons_self b rest)
      have hname : ∀ b' ∈ rest, b'.brand_name ≠ b.brand_name := by
        intro b' hb' heq
        exact hnd.1 (heq ▸ List.mem_map_of_mem Brand.brand_name hb')
      rw [process_chunk_snd_find_not_mem job rid ts rest _ _ hname]
      rw [process_single_brand_ok_find job rid ts reg b o hj]
      exact ⟨_, rfl, rfl, rfl⟩
    · exact ih _ (fun b' hb' => hok b' (List.mem_cons_of_mem a hb'))
        hnd.2 b hb

/-- The to-process list is the filter of the brand list by the
`needs_processing` decision. -/
theorem filter_brands_fst_eq_filter (reg : Registry) (force : Bool) :
    ∀ l : List Brand, (filter_brands reg force l).1
      = l.filter (fun b =>
          (needs_processing reg b.brand_name b.website b.parent_company
            force).1) := by
  intro l
  induction l with
  | nil => rfl
  | cons b rest ih =>
    simp only [filter_brands, List.filter_cons]
    by_cases h : (needs_processing reg b.brand_name b.website b.parent_company
        force).1 = true <;>
      simp [h, ih]

/-- Every brand lands either in the to-process list or in the skipped
list. -/
theorem filter_brands_length (reg : Registry) (force : Bool) :
    ∀ l : List Brand, (filter_brands reg force l).1.length
      + (filter_brands reg force l).2.length = l.length := by
  intro l
  induction l with
  | nil => rfl
  | cons b rest ih =>
    simp only [filter_brands]
    by_cases h : (needs_processing reg b.brand_name b.website b.parent_company
        force).1 = true <;>
      · simp [h]
        omega

/-- The registry left by a no-budget batch run is the registry after
processing exactly the filtered-in brands, in order. -/
theorem process_batch_none_registry (job : Brand → JobOutcome)
    (rid ts : Brand → String) (reg0 : Registry) (brands : List Brand)
    (force : Bool) (cs : ℕ) (hcs : cs ≠ 0) :
    (process_batch job rid ts reg0 brands force none cs none).registry
      = (process_chunk job rid ts reg0
          (filter_brands reg0 force brands).1).2 := by
  by_cases hbr : brands = []
  · subst hbr
    simp [process_batch, filter_brands, process_chunk]
  · by_cases hfl : (filter_brands reg0 force brands).1 = []
    · simp [process_batch, hbr, hfl, process_chunk]
    · have hout : process_batch job rid ts reg0 brands force none cs none
        = chunk_loop job rid ts none
            ⟨[], [], (filter_brands reg0 force brands).2⟩
            reg0 [] 0 0
            (chunk_list cs (filter_brands reg0 force brands).1) := by
        simp [process_batch, hbr, hfl]
      rw [hout, chunk_loop_none_registry, chunk_list_flatten _ _ hcs]

/-- When the filter leaves nothing to process, `process_batch` returns
before dispatching anything: empty success/failed lists, zero processed,
no checkpoints, untouched registry — and it never calls the job. -/
theorem process_batch_no_work (job : Brand → JobOutcome)
    (rid ts : Brand → String) (reg : Registry) (brands : List Brand)
    (force : Bool) (bl : Option ℚ) (cs : ℕ)
    (hfl : (filter_brands reg force brands).1 = []) :
    process_batch job rid ts reg brands force bl cs none
      = ⟨⟨[], [], (filter_brands reg force brands).2⟩, reg, [], 0, 0⟩ := by
  by_cases hbr : brands = []
  · subst hbr
    simp [process_batch, filter_brands]
  · simp [process_batch, hbr, hfl]

/-- C5: after a no-budget, no-limit run with `force = false` in which every
item's job succeeded, re-running over the same item list (distinct
identities, unchanged payloads) processes zero items: the Registry filters
every item out before dispatch (empty to-process list, all items skipped),
the summary shows no successes, no failures and zero processed, and the
second run's result does not depend on its job function at all — the Job
Function is never invoked. -/
theorem rerun_unchanged_processes_zero_items
    (job1 job2 job2' : Brand → JobOutcome)
    (rid1 ts1 rid2 ts2 rid2' ts2' : Brand → String)
    (reg0 : Registry) (brands : List Brand) (cs1 cs2 : ℕ) (bl2 : Option ℚ)
    (hnd : (brands.map Brand.brand_name).Nodup)
    (hok : ∀ b ∈ brands, ∃ o, job1 b = JobOutcome.ok o)
    (hcs : cs1 ≠ 0) :
    (filter_brands
        (process_batch job1 rid1 ts1 reg0 brands false none cs1 none).registry
        false brands).1 = [] ∧
    (process_batch job2 rid2 ts2
        (process_batch job1 rid1 ts1 reg0 brands false none cs1 none).registry
        brands false bl2 cs2 none).results.success = [] ∧
    (process_batch job2 rid2 ts2
        (process_batch job1 rid1 ts1 reg0 brands false none cs1 none).registry
        brands false bl2 cs2 none).results.failed = [] ∧
    (process_batch job2 rid2 ts2
        (process_batch job1 rid1 ts1 reg0 brands false none cs1 none).registry
        brands false bl2 cs2 none).processed_count = 0 ∧
    (process_batch job2 rid2 ts2
        (process_batch job1 rid1 ts1 reg0 brands false none cs1 none).registry
        brands false bl2 cs2 none).results.skipped.length = brands.length ∧
    process_batch job2 rid2 ts2
        (process_batch job1 rid1 ts1 reg0 brands false none cs1 none).registry
        brands false bl2 cs2 none
      = process_batch job2' rid2' ts2'
        (process_batch job1 rid1 ts1 reg0 brands false none cs1 none).registry
        brands false bl2 cs2 none := by
  have hreg1 := process_batch_none_registry job1 rid1 ts1 reg0 brands false
    cs1 hcs
  have key : ∀ b ∈ brands, ∃ r,
      Registry.find?
        ((process_chunk job1 rid1 ts1 reg0
          (filter_brands reg0 false brands).1).2) b.brand_name = some r ∧
      r.status = Status.success ∧
      r.last_input_hash
        = compute_input_hash b.brand_name b.website b.parent_company := by
    intro b hb
    by_cases hpred : (needs_processing reg0 b.brand_name b.website
        b.parent_company false).1 = true
    · have hmem : b ∈ (filter_brands reg0 false brands).1 := by
        rw [filter_brands_fst_eq_filter]
        exact List.mem_filter.mpr ⟨hb, hpred⟩
      have hsub : (filter_brands reg0 false brands).1.Sublist brands := by
        rw [filter_brands_fst_eq_filter]
        exact List.filter_sublist brands
      have hnd' : ((filter_brands reg0 false brands).1.map
          Brand.brand_name).Nodup :=
        List.Nodup.sublist (hsub.map Brand.brand_name) hnd
      exact process_chunk_all_ok_find job1 rid1 ts1 _ reg0
        (fun b' hb' => hok b' (hsub.subset hb')) hnd' b hmem
    · have hpred' : (needs_processing reg0 b.brand_name b.website
          b.parent_company false).1 = false := by
        simpa using hpred
      obtain ⟨r, hf, hs, hh⟩ :=
        needs_processing_false_spec reg0 _ _ _ hpred'
      have hnot : ∀ b' ∈ (filter_brands reg0 false brands).1,
          b'.brand_name ≠ b.brand_name := by
        intro b' hb' heq
        rw [filter_brands_fst_eq_filter] at hb'
        obtain ⟨hb'mem, hb'pred⟩ := List.mem_filter.mp hb'
        have hbb : b' = b := List.inj_on_of_nodup_map hnd hb'mem hb heq
        rw [hbb] at hb'pred
        rw [hb'pred] at hpred
        exact hpred rfl
      rw [process_chunk_snd_find_not_mem job1 rid1 ts1 _ _ _ hnot]
      exact ⟨r, hf, hs, hh⟩
  have hfl1 : (filter_brands
      ((process_chunk job1 rid1 ts1 reg0
        (filter_brands reg0 false brands).1).2) false brands).1 = [] := by
    rw [filter_brands_fst_eq_filter]
    apply List.eq_nil_iff_forall_not_mem.mpr
    intro b hbmem
    obtain ⟨hbmem', hbpred⟩ := List.mem_filter.mp hbmem
    obtain ⟨r, hf, hs, hh⟩ := key b hbmem'
    have hfalse := needs_processing_false_intro _ _ _ _ r hf hs hh
    rw [hfalse] at hbpred
    simp at hbpred
  rw [hreg1]
  have hno := process_batch_no_work job2 rid2 ts2
    ((process_chunk job1 rid1 ts1 reg0
      (filter_brands reg0 false brands).1).2) brands false bl2 cs2 hfl1
  have hno' := process_batch_no_work job2' rid2' ts2'
    ((process_chunk job1 rid1 ts1 reg0
      (filter_brands reg0 false brands).1).2) brands false bl2 cs2 hfl1
  refine ⟨hfl1, ?_, ?_, ?_, ?_, ?_⟩
  · rw [hno]
  · rw [hno]
  · rw [hno]
  · rw [hno]
    have hlen := filter_brands_length
      ((process_chunk job1 rid1 ts1 reg0
        (filter_brands reg0 false brands).1).2) false brands
    rw [hfl1] at hlen
    simpa using hlen
  · rw [hno, hno']

/-- Witness for C5: a successful two-brand run, then a re-run (with a job
that would fail if ever invoked) that processes zero items and equals a
re-run with a completely different job function. -/
theorem rerun_unchanged_processes_zero_items_witness :
    let brands : List Brand := [⟨"a", none, none, 1⟩, ⟨"b", none, none, 2⟩]
    let reg1 := (process_batch (fun _ => JobOutcome.ok [])
      (fun b => b.brand_name) (fun _ => "t") [] brands false none 1
      none).registry
    (filter_brands reg1 false brands).1 = [] ∧
    (process_batch (fun _ => JobOutcome.errs "e") (fun b => b.brand_name)
      (fun _ => "u") reg1 brands false (some 3) 7 none).results.success
      = [] ∧
    (process_batch (fun _ => JobOutcome.errs "e") (fun b => b.brand_name)
      (fun _ => "u") reg1 brands false (some 3) 7 none).results.failed
      = [] ∧
    (process_batch (fun _ => JobOutcome.errs "e") (fun b => b.brand_name)
      (fun _ => "u") reg1 brands false (some 3) 7 none).processed_count
      = 0 ∧
    (process_batch (fun _ => JobOutcome.errs "e") (fun b => b.brand_name)
      (fun _ => "u") reg1 brands false (some 3) 7 none).results.skipped.length
      = brands.length ∧
    process_batch (fun _ => JobOutcome.errs "e") (fun b => b.brand_name)
      (fun _ => "u") reg1 brands false (some 3) 7 none
      = process_batch (fun _ => JobOutcome.ok [("x", "y")]) (fun _ => "r2")
        (fun _ => "u2") reg1 brands false (some 3) 7 none :=
  rerun_unchanged_processes_zero_items
    (fun _ => JobOutcome.ok []) (fun _ => JobOutcome.errs "e")
    (fun _ => JobOutcome.ok [("x", "y")])
    (fun b => b.brand_name) (fun _ => "t") (fun b => b.brand_name)
    (fun _ => "u") (fun _ => "r2") (fun _ => "u2")
    [] [⟨"a", none, none, 1⟩, ⟨"b", none, none, 2⟩] 1 7 (some 3)
    (by decide) (fun b _ => ⟨[], rfl⟩) one_ne_zero
